import Mathlib

/-!
Verification of the sales-dashboard data pipeline in `final_app.py`.

The embedding models the data-transformation core of the script:

* `Record` / `Table` — one row of the sales table, with the derived
  hour-of-day column (`df["小时数"] = pd.to_datetime(df["时间"],
  format="%H:%M:%S").dt.hour`, line 32).
* `loadTable` / `fallbackRaw` — the fallback branch of
  `get_dataframe_from_excel` (lines 16–33): the six literal sample rows
  plus the derived hour column; a time string that does not match
  `HH:MM:SS` is a fatal parse error, modelled by `Option`.
* `filterTable` — `df.query("城市 == @city & 顾客类型 == @customer_type &
  性别 == @gender")` (lines 66–68); in `pandas.query` a `==` against a
  list is membership, so a row is kept iff each of its three categorical
  fields is a member of the corresponding selection list.
* `uniqueList` — `Series.unique()` (lines 42/50/58), which lists the
  distinct values in first-encountered order.
* `aggBuckets` / `aggByProduct` / `aggByHour` — the two
  `groupby(...)[["总价"]].sum()` aggregations (lines 74 and 95).  Pandas
  `groupby` defaults to `sort=True`, so the buckets are produced in
  ascending group-key order; `sort_values(by="总价")` (line 74) is
  modelled as a stable sort ascending on the summed total.
* `summarize` / `starCount` — the key metrics of `main_page_demo`
  (lines 123–126).  Numeric columns are embedded as exact rationals;
  the mean of an empty column (pandas `NaN`) is modelled as `none`, and
  `int(...)` applied to it (line 125) is the fatal `ValueError`, modelled
  by `Except`.
-/

namespace FinalApp

/-- One row of the sales table, including the derived hour column
(`小时数`) computed at load time and the order-id index (`订单号`). -/
structure Record where
  orderId : Nat
  time : String
  city : String
  customerType : String
  gender : String
  productCategory : String
  totalPrice : ℚ
  rating : ℚ
  hour : Nat
deriving DecidableEq

/-- A raw row before the derived hour column is added (the `data` dict of
lines 19–28, or an Excel row). -/
structure RawRecord where
  orderId : Nat
  time : String
  city : String
  customerType : String
  gender : String
  productCategory : String
  totalPrice : ℚ
  rating : ℚ
deriving DecidableEq

/-- The loaded table: an ordered list of rows. -/
abbrev Table := List Record

/-- Strict `HH:MM:SS` parsing of the `时间` field, as done by
`pd.to_datetime(..., format="%H:%M:%S")` on line 32; returns the hour.
A malformed time is a parse failure (`none`), which is fatal at load. -/
def parseHour (s : String) : Option Nat :=
  match s.toList with
  | [h1, h2, ':', m1, m2, ':', s1, s2] =>
      if h1.isDigit ∧ h2.isDigit ∧ m1.isDigit ∧ m2.isDigit ∧ s1.isDigit ∧ s2.isDigit then
        let hh := (h1.toNat - 48) * 10 + (h2.toNat - 48)
        let mm := (m1.toNat - 48) * 10 + (m2.toNat - 48)
        let ss := (s1.toNat - 48) * 10 + (s2.toNat - 48)
        if hh ≤ 23 ∧ mm ≤ 59 ∧ ss ≤ 59 then some hh else none
      else none
  | _ => none

/-- Add the derived hour column to one raw row (line 32). -/
def deriveRecord (r : RawRecord) : Option Record :=
  (parseHour r.time).map (fun h =>
    { orderId := r.orderId, time := r.time, city := r.city,
      customerType := r.customerType, gender := r.gender,
      productCategory := r.productCategory, totalPrice := r.totalPrice,
      rating := r.rating, hour := h })

/-- Load a table from raw rows, deriving the hour column for every row;
any row whose time fails to parse makes the whole load fail (line 32
raises for a malformed `时间` value). -/
def loadTable : List RawRecord → Option Table
  | [] => some []
  | r :: rs =>
      match deriveRecord r, loadTable rs with
      | some x, some xs => some (x :: xs)
      | _, _ => none

/-- The six literal sample rows of the fallback dataset
(lines 19–28 of `final_app.py`). -/
def fallbackRaw : List RawRecord :=
  [ { orderId := 1001, time := "09:30:00", city := "上海", customerType := "会员",
      gender := "女", productCategory := "电子产品", totalPrice := 299, rating := 4.5 },
    { orderId := 1002, time := "10:15:00", city := "北京", customerType := "普通",
      gender := "男", productCategory := "服装", totalPrice := 199, rating := 3.8 },
    { orderId := 1003, time := "11:20:00", city := "上海", customerType := "会员",
      gender := "男", productCategory := "食品", totalPrice := 89, rating := 4.2 },
    { orderId := 1004, time := "14:40:00", city := "广州", customerType := "普通",
      gender := "女", productCategory := "电子产品", totalPrice := 399, rating := 4.8 },
    { orderId := 1005, time := "15:10:00", city := "北京", customerType := "会员",
      gender := "女", productCategory := "服装", totalPrice := 259, rating := 3.9 },
    { orderId := 1006, time := "16:30:00", city := "广州", customerType := "普通",
      gender := "男", productCategory := "食品", totalPrice := 129, rating := 4.1 } ]

/-- Row 1001 of the fallback table after loading. -/
def fbRec1 : Record :=
  { orderId := 1001, time := "09:30:00", city := "上海", customerType := "会员",
    gender := "女", productCategory := "电子产品", totalPrice := 299, rating := 4.5, hour := 9 }

/-- Row 1002 of the fallback table after loading. -/
def fbRec2 : Record :=
  { orderId := 1002, time := "10:15:00", city := "北京", customerType := "普通",
    gender := "男", productCategory := "服装", totalPrice := 199, rating := 3.8, hour := 10 }

/-- Row 1003 of the fallback table after loading. -/
def fbRec3 : Record :=
  { orderId := 1003, time := "11:20:00", city := "上海", customerType := "会员",
    gender := "男", productCategory := "食品", totalPrice := 89, rating := 4.2, hour := 11 }

/-- Row 1004 of the fallback table after loading. -/
def fbRec4 : Record :=
  { orderId := 1004, time := "14:40:00", city := "广州", customerType := "普通",
    gender := "女", productCategory := "电子产品", totalPrice := 399, rating := 4.8, hour := 14 }

/-- Row 1005 of the fallback table after loading. -/
def fbRec5 : Record :=
  { orderId := 1005, time := "15:10:00", city := "北京", customerType := "会员",
    gender := "女", productCategory := "服装", totalPrice := 259, rating := 3.9, hour := 15 }

/-- Row 1006 of the fallback table after loading. -/
def fbRec6 : Record :=
  { orderId := 1006, time := "16:30:00", city := "广州", customerType := "普通",
    gender := "男", productCategory := "食品", totalPrice := 129, rating := 4.1, hour := 16 }

/-- The fallback table: the six sample rows with their derived hours. -/
def fallbackTable : Table := [fbRec1, fbRec2, fbRec3, fbRec4, fbRec5, fbRec6]

/-- `Series.unique()` (lines 42/50/58): the distinct values of a column in
first-encountered order. -/
def uniqueList {α : Type} [DecidableEq α] (l : List α) : List α :=
  l.foldl (fun acc a => if a ∈ acc then acc else acc ++ [a]) []

/-- The default city selection `df["城市"].unique()` (line 42). -/
def cityOptions (t : Table) : List String := uniqueList (t.map Record.city)

/-- The default customer-type selection `df["顾客类型"].unique()` (line 50). -/
def customerTypeOptions (t : Table) : List String := uniqueList (t.map Record.customerType)

/-- The default gender selection `df["性别"].unique()` (line 58). -/
def genderOptions (t : Table) : List String := uniqueList (t.map Record.gender)

/-- The sidebar filter (lines 66–68): `df.query("城市 == @city &
顾客类型 == @customer_type & 性别 == @gender")`.  In `pandas.query`, `==`
against a list means membership, so a row is kept iff each categorical
field is in the corresponding selection list; row order is preserved. -/
def filterTable (t : Table) (citySel custSel genderSel : List String) : Table :=
  t.filter (fun r =>
    decide (r.city ∈ citySel ∧ r.customerType ∈ custSel ∧ r.gender ∈ genderSel))

/-- Sum of the `总价` column over a table. -/
def ratSum (t : Table) : ℚ := (t.map Record.totalPrice).sum

/-- Python `int(...)` on a float: truncation toward zero (line 123). -/
def intTrunc (q : ℚ) : ℤ := if 0 ≤ q then ⌊q⌋ else ⌈q⌉

/-- Python `round` to an integer: round half to even (banker's rounding),
the semantics of `round(x, n)` used on lines 124–126. -/
def roundHalfEven (q : ℚ) : ℤ :=
  if q - ⌊q⌋ < 1/2 then ⌊q⌋
  else if 1/2 < q - ⌊q⌋ then ⌊q⌋ + 1
  else if Even ⌊q⌋ then ⌊q⌋ else ⌊q⌋ + 1

/-- Python `round(q, ndigits)` for a nonnegative number of digits. -/
def pyRound (q : ℚ) (ndigits : Nat) : ℚ :=
  (roundHalfEven (q * 10 ^ ndigits) : ℚ) / 10 ^ ndigits

/-- `Series.mean()`: `none` for an empty column (pandas yields `NaN`),
otherwise sum divided by length. -/
def listMean (l : List ℚ) : Option ℚ :=
  if l = [] then none else some (l.sum / l.length)

/-- The three key metrics of `main_page_demo` (lines 123–126): the
integer-truncated total of `总价`, the mean rating rounded to 1 decimal,
and the mean transaction rounded to 2 decimals.  The means are absent
(`NaN`) on an empty table. -/
structure Summary where
  total : ℤ
  averageRating : Option ℚ
  averageTransaction : Option ℚ
deriving DecidableEq

/-- Lines 123, 124 and 126 of `final_app.py`. -/
def summarize (t : Table) : Summary :=
  { total := intTrunc (ratSum t)
  , averageRating := (listMean (t.map Record.rating)).map (fun m => pyRound m 1)
  , averageTransaction := (listMean (t.map Record.totalPrice)).map (fun m => pyRound m 2) }

/-- Line 125: `int(round(average_rating, 0))`.  On an empty table
`average_rating` is `NaN` and `int(NaN)` raises `ValueError`. -/
def starCount (t : Table) : Except String ℤ :=
  match (listMean (t.map Record.rating)).map (fun m => pyRound m 1) with
  | none => Except.error "cannot convert float NaN to integer"
  | some ar => Except.ok (roundHalfEven ar)

/-- `df.groupby(by=[col])[["总价"]].sum()` for a grouping key: one bucket
per distinct key, in ascending key order (pandas `groupby` defaults to
`sort=True`), each bucket summing `总价` over the rows with that key. -/
def aggBuckets {κ : Type} [LinearOrder κ] [DecidableEq κ] (key : Record → κ) (t : Table) : List (κ × ℚ) :=
  (List.insertionSort (· ≤ ·) (t.map key).dedup).map
    (fun k => (k, ((t.filter (fun r => decide (key r = k))).map Record.totalPrice).sum))

/-- Line 74: `df.groupby(by=["产品类型"])[["总价"]].sum().sort_values(by="总价")`.
The value sort is modelled as a stable sort ascending on the summed
total, applied to the key-ascending `groupby` output. -/
def aggByProduct (t : Table) : List (String × ℚ) :=
  List.insertionSort (fun a b => a.2 ≤ b.2) (aggBuckets Record.productCategory t)

/-- Line 95: `df.groupby(by=["小时数"])[["总价"]].sum().reset_index()`:
buckets in ascending hour order, no further sorting. -/
def aggByHour (t : Table) : List (Nat × ℚ) := aggBuckets Record.hour t

/-- The strict lexicographic order "smaller total, or equal total and
smaller key" in which `aggByProduct` actually emits its buckets. -/
def bucketLex {κ : Type} [LinearOrder κ] (a b : κ × ℚ) : Prop :=
  a.2 < b.2 ∨ (a.2 = b.2 ∧ a.1 < b.1)

/-- Modelled from the spec: claim C2's reading of the product aggregation,
with equal totals ordered by first-encountered group-key order — the
buckets are built in first-encountered key order (instead of the
key-ascending order `groupby(sort=True)` produces) and then stably
sorted ascending on the summed total. -/
def aggByProductFirstEncounter (t : Table) : List (String × ℚ) :=
  List.insertionSort (fun a b => a.2 ≤ b.2)
    ((uniqueList (t.map Record.productCategory)).map
      (fun k => (k, ((t.filter (fun r => decide (r.productCategory = k))).map Record.totalPrice).sum)))

/-- A row with product category `食品`, used to exhibit how ties are
ordered by the product aggregation. -/
def cxTieA : Record :=
  { orderId := 1, time := "09:00:00", city := "上海", customerType := "会员",
    gender := "女", productCategory := "食品", totalPrice := 100, rating := 5, hour := 9 }

/-- A row with product category `服装` and the same total price as
`cxTieA`. -/
def cxTieB : Record :=
  { orderId := 2, time := "10:00:00", city := "北京", customerType := "普通",
    gender := "男", productCategory := "服装", totalPrice := 100, rating := 4, hour := 10 }

/-- A row with a fractional total price, on which the integer-truncated
summary total differs from the exact bucket sum. -/
def cxHalf : Record :=
  { orderId := 7, time := "12:00:00", city := "上海", customerType := "会员",
    gender := "女", productCategory := "食品", totalPrice := 599/2, rating := 4, hour := 12 }

/- ### Helper lemmas -/

lemma roundHalfEven_of_floor {q : ℚ} {n : ℤ} (hn : ⌊q⌋ = n) (h : q - n < 1/2) :
    roundHalfEven q = n := by
  unfold roundHalfEven
  rw [hn, if_pos h]

lemma mem_uniqueList_aux {α : Type} [DecidableEq α] (l : List α) :
    ∀ (acc : List α) (x : α),
      x ∈ l.foldl (fun acc a => if a ∈ acc then acc else acc ++ [a]) acc ↔ x ∈ acc ∨ x ∈ l := by
  induction l with
  | nil => intro acc x; simp
  | cons a l ih =>
    intro acc x
    simp only [List.foldl_cons]
    by_cases h : a ∈ acc
    · rw [if_pos h, ih]
      constructor
      · rintro (hx | hx)
        · exact Or.inl hx
        · exact Or.inr (List.mem_cons_of_mem a hx)
      · rintro (hx | hx)
        · exact Or.inl hx
        · rcases List.mem_cons.mp hx with rfl | hx
          · exact Or.inl h
          · exact Or.inr hx
    · rw [if_neg h, ih]
      simp only [List.mem_append, List.mem_singleton, List.mem_cons]
      tauto

lemma mem_uniqueList {α : Type} [DecidableEq α] {l : List α} {x : α} :
    x ∈ uniqueList l ↔ x ∈ l := by
  unfold uniqueList
  rw [mem_uniqueList_aux]
  simp

lemma sortedKeys_sorted_lt {κ : Type} [LinearOrder κ] [DecidableEq κ] (l : List κ) :
    (List.insertionSort (· ≤ ·) l.dedup).Sorted (· < ·) :=
  (List.sorted_insertionSort _ _).lt_of_le
    ((List.perm_insertionSort (· ≤ ·) l.dedup).symm.nodup (List.nodup_dedup l))

lemma mem_sortedKeys {κ : Type} [LinearOrder κ] [DecidableEq κ] {l : List κ} {k : κ} :
    k ∈ List.insertionSort (· ≤ ·) l.dedup ↔ k ∈ l := by
  rw [List.mem_insertionSort, List.mem_dedup]

lemma aggBuckets_map_fst {κ : Type} [LinearOrder κ] [DecidableEq κ] (key : Record → κ) (t : Table) :
    (aggBuckets key t).map Prod.fst = List.insertionSort (· ≤ ·) (t.map key).dedup := by
  simp [aggBuckets, List.map_map, Function.comp_def]

lemma aggBuckets_pairwise_key {κ : Type} [LinearOrder κ] [DecidableEq κ] (key : Record → κ) (t : Table) :
    (aggBuckets key t).Pairwise (fun a b => a.1 < b.1) := by
  unfold aggBuckets
  rw [List.pairwise_map]
  exact sortedKeys_sorted_lt _

lemma aggBuckets_snd {κ : Type} [LinearOrder κ] [DecidableEq κ] (key : Record → κ) (t : Table) :
    ∀ p ∈ aggBuckets key t,
      p.2 = ((t.filter (fun r => decide (key r = p.1))).map Record.totalPrice).sum := by
  intro p hp
  rcases List.mem_map.mp hp with ⟨k, _, rfl⟩
  rfl

lemma sum_map_ite_of_nodup {κ : Type} [DecidableEq κ] (c : ℚ) (a : κ) :
    ∀ (keys : List κ), keys.Nodup → a ∈ keys →
      (keys.map (fun k => if a = k then c else 0)).sum = c := by
  intro keys
  induction keys with
  | nil => intro _ ha; cases ha
  | cons k ks ih =>
    intro hnd ha
    rcases List.mem_cons.mp ha with rfl | ha2
    · simp only [List.map_cons, List.sum_cons, if_pos rfl]
      have hz : ∀ x ∈ ks.map (fun k => if a = k then c else 0), x = 0 := by
        intro x hx
        rcases List.mem_map.mp hx with ⟨b, hb, rfl⟩
        have hab : a ≠ b := by rintro rfl; exact (List.nodup_cons.mp hnd).1 hb
        simp [hab]
      rw [List.sum_eq_zero hz, add_zero]
      simp
    · have hka : a ≠ k := by rintro rfl; exact (List.nodup_cons.mp hnd).1 ha2
      simp only [List.map_cons, List.sum_cons, if_neg hka, zero_add]
      exact ih (List.nodup_cons.mp hnd).2 ha2

lemma groupSum_eq_totalSum {κ : Type} [DecidableEq κ] (key : Record → κ) :
    ∀ (t : Table) (keys : List κ), keys.Nodup → (∀ r ∈ t, key r ∈ keys) →
      (keys.map (fun k =>
        ((t.filter (fun r => decide (key r = k))).map Record.totalPrice).sum)).sum
        = (t.map Record.totalPrice).sum := by
  intro t
  induction t with
  | nil => intro keys _ _; simp
  | cons r t ih =>
    intro keys hnd hcov
    have hr : key r ∈ keys := hcov r (List.mem_cons_self r t)
    have step : ∀ k ∈ keys,
        ((List.filter (fun x => decide (key x = k)) (r :: t)).map Record.totalPrice).sum
          = (if key r = k then r.totalPrice else 0)
            + ((t.filter (fun x => decide (key x = k))).map Record.totalPrice).sum := by
      intro k _
      by_cases h : key r = k
      · rw [List.filter_cons_of_pos (by simpa using h), if_pos h]
        simp
      · rw [List.filter_cons_of_neg (by simpa using h), if_neg h, zero_add]
    rw [List.map_congr_left step, List.sum_map_add,
      sum_map_ite_of_nodup r.totalPrice (key r) keys hnd hr,
      ih keys hnd (fun x hx => hcov x (List.mem_cons_of_mem r hx))]
    simp

lemma aggBuckets_sum {κ : Type} [LinearOrder κ] [DecidableEq κ] (key : Record → κ) (t : Table) :
    ((aggBuckets key t).map Prod.snd).sum = ratSum t := by
  unfold aggBuckets ratSum
  rw [List.map_map]
  have hfun : (Prod.snd ∘ fun k =>
      (k, ((t.filter (fun r => decide (key r = k))).map Record.totalPrice).sum))
      = fun k => ((t.filter (fun r => decide (key r = k))).map Record.totalPrice).sum := rfl
  rw [hfun]
  refine groupSum_eq_totalSum key t _ ?_ ?_
  · exact (List.perm_insertionSort (· ≤ ·) _).symm.nodup (List.nodup_dedup _)
  · intro r hr
    exact mem_sortedKeys.mpr (List.mem_map_of_mem key hr)

lemma bucketLex_snd_le {κ : Type} [LinearOrder κ] {a b : κ × ℚ} (h : bucketLex a b) :
    a.2 ≤ b.2 := by
  rcases h with h | ⟨h, _⟩
  · exact le_of_lt h
  · exact le_of_eq h

lemma orderedInsert_bucketLex {κ : Type} [LinearOrder κ] (a : κ × ℚ) :
    ∀ l : List (κ × ℚ), l.Sorted bucketLex → (∀ b ∈ l, a.1 < b.1) →
      (List.orderedInsert (fun x y => x.2 ≤ y.2) a l).Sorted bucketLex := by
  intro l
  induction l with
  | nil => intro _ _; simp [List.orderedInsert, List.sorted_singleton]
  | cons b l ih =>
    intro hs hk
    simp only [List.orderedInsert]
    by_cases h : a.2 ≤ b.2
    · rw [if_pos h]
      refine List.sorted_cons.mpr ⟨?_, hs⟩
      intro c hc
      have hc2 : a.2 ≤ c.2 := by
        rcases List.mem_cons.mp hc with rfl | hc2
        · exact h
        · exact le_trans h (bucketLex_snd_le (List.rel_of_sorted_cons hs c hc2))
      rcases lt_or_eq_of_le hc2 with h2 | h2
      · exact Or.inl h2
      · exact Or.inr ⟨h2, hk c hc⟩
    · rw [if_neg h]
      have hba : b.2 < a.2 := not_le.mp h
      refine List.sorted_cons.mpr
        ⟨?_, ih (List.sorted_cons.mp hs).2 (fun c hc => hk c (List.mem_cons_of_mem b hc))⟩
      intro c hc
      rcases (List.mem_orderedInsert _).mp hc with rfl | hc2
      · exact Or.inl hba
      · exact List.rel_of_sorted_cons hs c hc2

lemma insertionSort_bucketLex {κ : Type} [LinearOrder κ] :
    ∀ l : List (κ × ℚ), l.Pairwise (fun a b => a.1 < b.1) →
      (List.insertionSort (fun x y => x.2 ≤ y.2) l).Sorted bucketLex := by
  intro l
  induction l with
  | nil => intro _; simp [List.insertionSort]
  | cons a l ih =>
    intro hp
    rw [List.insertionSort]
    refine orderedInsert_bucketLex a _ (ih (List.pairwise_cons.mp hp).2) ?_
    intro b hb
    exact (List.pairwise_cons.mp hp).1 b ((List.mem_insertionSort _).mp hb)

lemma aggBuckets_perm_inv {κ : Type} [LinearOrder κ] [DecidableEq κ] (key : Record → κ)
    {t t2 : Table} (hp : t.Perm t2) : aggBuckets key t = aggBuckets key t2 := by
  unfold aggBuckets
  have hkeys : List.insertionSort (· ≤ ·) (t.map key).dedup
      = List.insertionSort (· ≤ ·) (t2.map key).dedup := by
    refine List.eq_of_perm_of_sorted ?_
      (List.sorted_insertionSort _ _) (List.sorted_insertionSort _ _)
    exact (List.perm_insertionSort _ _).trans
      (((hp.map key).dedup).trans (List.perm_insertionSort _ _).symm)
  rw [hkeys]
  refine List.map_congr_left ?_
  intro k _
  have hsum : ((t.filter (fun r => decide (key r = k))).map Record.totalPrice).sum
      = ((t2.filter (fun r => decide (key r = k))).map Record.totalPrice).sum :=
    ((hp.filter _).map _).sum_eq
  rw [hsum]

/- ### Claim theorems -/

/-- Claim C3: filtering a table with each of the three selection lists set
to the full list of distinct values present in the table (the sidebar
defaults of lines 42–63) returns the table unchanged, with both row
contents and row order preserved. -/
theorem filter_full_selection_id (t : Table) :
    filterTable t (cityOptions t) (customerTypeOptions t) (genderOptions t) = t := by
  apply List.filter_eq_self.mpr
  intro r hr
  simp only [decide_eq_true_eq]
  refine ⟨?_, ?_, ?_⟩ <;>
    simp only [cityOptions, customerTypeOptions, genderOptions, mem_uniqueList] <;>
    exact List.mem_map_of_mem _ hr

/-- Claim C2 (amended): for every table, aggregation by product category
groups rows by exact equality on the product-category column, sums the
total-price column per group, and returns the buckets sorted ascending
by summed total; buckets with equal totals appear in ascending
group-key order (pandas `groupby` sorts the group keys before the value
sort), not in first-encountered order. -/
theorem aggByProduct_sorted (t : Table) :
    (aggByProduct t).Sorted bucketLex ∧
    ((aggByProduct t).map Prod.fst).Perm (t.map Record.productCategory).dedup ∧
    ∀ p ∈ aggByProduct t,
      p.2 = ((t.filter (fun r => decide (r.productCategory = p.1))).map Record.totalPrice).sum := by
  refine ⟨insertionSort_bucketLex _ (aggBuckets_pairwise_key _ _), ?_, ?_⟩
  · have h1 := (List.perm_insertionSort (fun a b : String × ℚ => a.2 ≤ b.2)
      (aggBuckets Record.productCategory t)).map Prod.fst
    rw [aggBuckets_map_fst] at h1
    exact h1.trans (List.perm_insertionSort _ _)
  · intro p hp
    exact aggBuckets_snd _ _ p ((List.mem_insertionSort _).mp hp)

/-- Claim C4 (amended): for every table and either grouping dimension, the
sum of the bucket totals equals the exact (untruncated) sum of the
total-price column, and the total reported by `summarize` is the
truncation toward zero of that bucket sum; the two agree exactly when
the total-price sum is an integer. -/
theorem agg_total_mass (t : Table) :
    ((aggByProduct t).map Prod.snd).sum = ratSum t ∧
    ((aggByHour t).map Prod.snd).sum = ratSum t ∧
    (summarize t).total = intTrunc (((aggByProduct t).map Prod.snd).sum) := by
  have hprod : ((aggByProduct t).map Prod.snd).sum = ratSum t := by
    have h1 := ((List.perm_insertionSort (fun a b : String × ℚ => a.2 ≤ b.2)
      (aggBuckets Record.productCategory t)).map Prod.snd).sum_eq
    rw [aggByProduct, h1]
    exact aggBuckets_sum _ _
  refine ⟨hprod, aggBuckets_sum _ _, ?_⟩
  rw [hprod]
  rfl

/-- Claim C5: for every table whose derived hour column is in range (an
integer 0–23, which holds for every loaded table), aggregation by
hour-of-day returns one bucket per distinct hour present, in ascending
numeric key order, each bucket in range and summing the total-price
column over exactly the rows with that hour. -/
theorem aggByHour_spec (t : Table) (h23 : ∀ r ∈ t, r.hour ≤ 23) :
    ((aggByHour t).map Prod.fst).Sorted (· < ·) ∧
    (∀ h, h ∈ (aggByHour t).map Prod.fst ↔ h ∈ t.map Record.hour) ∧
    (∀ p ∈ aggByHour t, p.1 ≤ 23) ∧
    (∀ p ∈ aggByHour t,
      p.2 = ((t.filter (fun r => decide (r.hour = p.1))).map Record.totalPrice).sum) := by
  refine ⟨?_, ?_, ?_, aggBuckets_snd _ _⟩
  · rw [aggByHour, aggBuckets_map_fst]
    exact sortedKeys_sorted_lt _
  · intro h
    rw [aggByHour, aggBuckets_map_fst, mem_sortedKeys]
  · intro p hp
    have hmem : p.1 ∈ (aggByHour t).map Prod.fst := List.mem_map_of_mem _ hp
    rw [aggByHour, aggBuckets_map_fst, mem_sortedKeys] at hmem
    rcases List.mem_map.mp hmem with ⟨r, hr, hrp⟩
    exact hrp ▸ h23 r hr

/-- Witness for C5: the hypothesis and conclusion hold at the fallback
table. -/
theorem aggByHour_spec_witness :
    (∀ r ∈ fallbackTable, r.hour ≤ 23) ∧
    (((aggByHour fallbackTable).map Prod.fst).Sorted (· < ·) ∧
     (∀ h, h ∈ (aggByHour fallbackTable).map Prod.fst ↔ h ∈ fallbackTable.map Record.hour) ∧
     (∀ p ∈ aggByHour fallbackTable, p.1 ≤ 23) ∧
     (∀ p ∈ aggByHour fallbackTable,
       p.2 = ((fallbackTable.filter (fun r => decide (r.hour = p.1))).map
         Record.totalPrice).sum)) :=
  ⟨by decide, aggByHour_spec fallbackTable (by decide)⟩

/-- Claim C8: for every table and every permutation of its rows, both
aggregations return the same ordered bucket list — row insertion order
does not affect aggregation results. -/
theorem agg_perm_invariant (t t2 : Table) (hp : t.Perm t2) :
    aggByProduct t = aggByProduct t2 ∧ aggByHour t = aggByHour t2 := by
  refine ⟨?_, aggBuckets_perm_inv _ hp⟩
  unfold aggByProduct
  rw [aggBuckets_perm_inv Record.productCategory hp]

/-- Witness for C8: swapping the first two fallback rows leaves both
aggregate bucket lists unchanged. -/
theorem agg_perm_invariant_witness :
    ([fbRec1, fbRec2] : Table).Perm [fbRec2, fbRec1] ∧
    (aggByProduct [fbRec1, fbRec2] = aggByProduct [fbRec2, fbRec1] ∧
     aggByHour [fbRec1, fbRec2] = aggByHour [fbRec2, fbRec1]) :=
  ⟨List.Perm.swap fbRec2 fbRec1 [], agg_perm_invariant _ _ (List.Perm.swap fbRec2 fbRec1 [])⟩

/-- Claim C10: for every table and every choice of the three selection
lists, the filtered result is an order-preserving subsequence of the
input (each output row is an input row, with every field unchanged), and
a row is kept exactly when its three categorical fields are members of
the respective selections. -/
theorem filter_sublist_and_mem (t : Table) (cs ts gs : List String) :
    (filterTable t cs ts gs).Sublist t ∧
    ∀ r, r ∈ filterTable t cs ts gs ↔
      r ∈ t ∧ r.city ∈ cs ∧ r.customerType ∈ ts ∧ r.gender ∈ gs := by
  refine ⟨List.filter_sublist _, fun r => ?_⟩
  simp [filterTable, List.mem_filter]

/-- Claim C6: with no input source, the loader returns exactly the six
fixed sample records (with their derived hours), and `summarize` over
that full fallback table yields total 1374, average rating 4.2 (one
decimal) and average transaction 229.00 (two decimals). -/
theorem load_fallback_summary :
    loadTable fallbackRaw = some fallbackTable ∧
    fallbackTable = [fbRec1, fbRec2, fbRec3, fbRec4, fbRec5, fbRec6] ∧
    summarize fallbackTable =
      { total := 1374, averageRating := some (21/5), averageTransaction := some 229 } := by
  refine ⟨rfl, rfl, ?_⟩
  have hmp : fallbackTable.map Record.totalPrice = [299, 199, 89, 399, 259, 129] := rfl
  have hmr : fallbackTable.map Record.rating = [4.5, 3.8, 4.2, 4.8, 3.9, 4.1] := rfl
  unfold summarize
  rw [Summary.mk.injEq]
  refine ⟨?_, ?_, ?_⟩
  · have h : ratSum fallbackTable = 1374 := by
      unfold ratSum
      rw [hmp]
      norm_num
    rw [h]
    unfold intTrunc
    rw [if_pos (by norm_num)]
    norm_num
  · rw [hmr]
    unfold listMean
    rw [if_neg (by simp)]
    rw [Option.map_some']
    have harg : (([4.5, 3.8, 4.2, 4.8, 3.9, 4.1] : List ℚ).sum
        / (([4.5, 3.8, 4.2, 4.8, 3.9, 4.1] : List ℚ).length : ℚ)) = 253/60 := by
      norm_num
    rw [harg]
    unfold pyRound
    have harg2 : (253/60 : ℚ) * 10 ^ (1 : ℕ) = 253/6 := by norm_num
    rw [harg2, roundHalfEven_of_floor (n := 42) (by norm_num) (by norm_num)]
    norm_num
  · rw [hmp]
    unfold listMean
    rw [if_neg (by simp)]
    rw [Option.map_some']
    have harg : (([299, 199, 89, 399, 259, 129] : List ℚ).sum
        / (([299, 199, 89, 399, 259, 129] : List ℚ).length : ℚ)) = 229 := by
      norm_num
    rw [harg]
    unfold pyRound
    have harg2 : (229 : ℚ) * 10 ^ (2 : ℕ) = 22900 := by norm_num
    rw [harg2, roundHalfEven_of_floor (n := 22900) (by norm_num) (by norm_num)]
    norm_num

/-- Claim C7: on the fallback dataset, filtering with city `{"上海"}` and
the other two selections at their full defaults yields exactly the rows
with order ids 1001 (`电子产品`, total 299) and 1003 (`食品`, total 89),
and `summarize` over that filtered table reports total 388. -/
theorem filter_shanghai :
    filterTable fallbackTable ["上海"]
        (customerTypeOptions fallbackTable) (genderOptions fallbackTable)
      = [fbRec1, fbRec3] ∧
    fbRec1.orderId = 1001 ∧ fbRec1.productCategory = "电子产品" ∧ fbRec1.totalPrice = 299 ∧
    fbRec3.orderId = 1003 ∧ fbRec3.productCategory = "食品" ∧ fbRec3.totalPrice = 89 ∧
    (summarize (filterTable fallbackTable ["上海"]
        (customerTypeOptions fallbackTable) (genderOptions fallbackTable))).total = 388 := by
  have hf : filterTable fallbackTable ["上海"]
      (customerTypeOptions fallbackTable) (genderOptions fallbackTable) = [fbRec1, fbRec3] := rfl
  refine ⟨hf, rfl, rfl, rfl, rfl, rfl, rfl, ?_⟩
  rw [hf]
  show intTrunc (ratSum [fbRec1, fbRec3]) = 388
  have h : ratSum [fbRec1, fbRec3] = 388 := by
    unfold ratSum
    rw [show ([fbRec1, fbRec3] : Table).map Record.totalPrice = [299, 89] from rfl]
    norm_num
  rw [h]
  unfold intTrunc
  rw [if_pos (by norm_num)]
  norm_num

/-- Claim C1: an empty selection on every dimension filters the fallback
table down to the empty table, on which `summarize` reports total 0 and
both averages absent and both aggregations return empty bucket lists —
but the pipeline does raise: line 125 computes `int(round(NaN, 0))`,
a `ValueError`, modelled by `starCount` returning an error. -/
theorem empty_selection_behavior :
    (∀ t : Table, filterTable t [] [] [] = []) ∧
    filterTable fallbackTable [] [] [] = [] ∧
    summarize (filterTable fallbackTable [] [] []) =
      { total := 0, averageRating := none, averageTransaction := none } ∧
    aggByProduct (filterTable fallbackTable [] [] []) = [] ∧
    aggByHour (filterTable fallbackTable [] [] []) = [] ∧
    starCount (filterTable fallbackTable [] [] []) =
      Except.error "cannot convert float NaN to integer" := by
  refine ⟨?_, rfl, ?_, rfl, rfl, rfl⟩
  · intro t
    unfold filterTable
    simp
  · show summarize [] = _
    unfold summarize ratSum intTrunc listMean
    simp

/-- Claim C2 counterexample: on a table whose first row has category
`食品` and whose second row has category `服装`, with equal summed
totals, the code returns the tie in ascending key order `[服装, 食品]`
(pandas `groupby` sorts keys before the value sort), not in the
first-encountered order `[食品, 服装]` the claim states. -/
theorem aggByProduct_not_first_encounter :
    aggByProduct [cxTieA, cxTieB] = [("服装", 100), ("食品", 100)] ∧
    aggByProductFirstEncounter [cxTieA, cxTieB] = [("食品", 100), ("服装", 100)] ∧
    aggByProduct [cxTieA, cxTieB] ≠ aggByProductFirstEncounter [cxTieA, cxTieB] := by
  have hlt : ("服装" : String) < "食品" := by
    simp only [String.lt_iff_toList_lt]
    decide
  have hnle : ¬ (("食品" : String) ≤ "服装") := not_le.mpr hlt
  have h1 : aggByProduct [cxTieA, cxTieB] = [("服装", 100), ("食品", 100)] := by
    unfold aggByProduct aggBuckets
    rw [show (([cxTieA, cxTieB] : Table).map Record.productCategory).dedup
        = ["食品", "服装"] from by decide]
    have hsort : List.insertionSort (α := String) (· ≤ ·) ["食品", "服装"]
        = ["服装", "食品"] := by
      simp [List.insertionSort, List.orderedInsert, hnle]
    rw [hsort]
    rw [show List.map (fun k => (k,
          ((([cxTieA, cxTieB] : Table).filter
            (fun r => decide (r.productCategory = k))).map Record.totalPrice).sum))
          ["服装", "食品"]
        = [("服装", (100 : ℚ) + 0), ("食品", (100 : ℚ) + 0)] from rfl]
    simp only [List.insertionSort, List.orderedInsert]
    norm_num
  have h2 : aggByProductFirstEncounter [cxTieA, cxTieB] = [("食品", 100), ("服装", 100)] := by
    unfold aggByProductFirstEncounter
    rw [show uniqueList (([cxTieA, cxTieB] : Table).map Record.productCategory)
        = ["食品", "服装"] from by decide]
    rw [show List.map (fun k => (k,
          ((([cxTieA, cxTieB] : Table).filter
            (fun r => decide (r.productCategory = k))).map Record.totalPrice).sum))
          ["食品", "服装"]
        = [("食品", (100 : ℚ) + 0), ("服装", (100 : ℚ) + 0)] from rfl]
    simp only [List.insertionSort, List.orderedInsert]
    norm_num
  refine ⟨h1, h2, ?_⟩
  rw [h1, h2]
  intro h
  rw [List.cons.injEq, Prod.mk.injEq] at h
  exact absurd h.1.1 (by decide)

/-- Claim C4 counterexample: on a one-row table with total price 299.5,
the bucket sum of the product aggregation is 299.5 while `summarize`
reports the truncated total 299, so the two are not equal. -/
theorem agg_total_mass_counterexample :
    ((aggByProduct [cxHalf]).map Prod.snd).sum = 599/2 ∧
    (summarize [cxHalf]).total = 299 ∧
    ((aggByProduct [cxHalf]).map Prod.snd).sum ≠ (((summarize [cxHalf]).total : ℤ) : ℚ) := by
  have hsum : ((aggByProduct [cxHalf]).map Prod.snd).sum = 599/2 := by
    have hp := ((List.perm_insertionSort (fun a b : String × ℚ => a.2 ≤ b.2)
      (aggBuckets Record.productCategory [cxHalf])).map Prod.snd).sum_eq
    rw [aggByProduct, hp, aggBuckets_sum]
    norm_num [ratSum, cxHalf]
  have htot : (summarize [cxHalf]).total = 299 := by
    show intTrunc (ratSum [cxHalf]) = 299
    have h : ratSum [cxHalf] = 599/2 := by norm_num [ratSum, cxHalf]
    rw [h]
    unfold intTrunc
    rw [if_pos (by norm_num)]
    norm_num
  refine ⟨hsum, htot, ?_⟩
  rw [hsum, htot]
  norm_num

end FinalApp
